import Mathlib

/-!
Verification of the node-usb device library (`src/index.ts`) against its
specification.

The TypeScript source is shallowly embedded: Node byte buffers are lists of
byte values (`Nat`), JavaScript numbers are `Nat`/`Int`, the asynchronous
native transfer engine is modelled by explicit outcome parameters, and
stateful objects are explicit state records threaded through the operations.
-/

namespace NodeUsb

/-- Node byte buffers: a list of byte values. -/
abbrev Buffer := List Nat

/-- Node `buf.readUInt8(i)`.  Reads are only used in range in the theorems
below (Node raises a range error out of range). -/
def readUInt8 (b : Buffer) (i : Nat) : Nat := b.getD i 0

/-- Node `buf.readUInt16LE(i)`: little-endian 16-bit read. -/
def readUInt16LE (b : Buffer) (i : Nat) : Nat := b.getD i 0 + 256 * b.getD (i + 1) 0

/-- JavaScript `buf.slice(start, end)`, which clamps both bounds at the
buffer length. -/
def jsSlice (b : Buffer) (s e : Nat) : Buffer := (b.take e).drop s

/-! Constants exposed by the native binding and used in `src/index.ts`. -/

def LIBUSB_ENDPOINT_IN : Nat := 128

/-- `usb.LIBUSB_CONTROL_SETUP_SIZE` (the `SETUP_SIZE` variable in the source). -/
def SETUP_SIZE : Nat := 8

def LIBUSB_DT_BOS_SIZE : Nat := 5

def LIBUSB_TRANSFER_TYPE_CONTROL : Nat := 0

def LIBUSB_TRANSFER_CANCELLED : Int := 3

def LIBUSB_TRANSFER_STALL : Int := 4

def LIBUSB_ERROR_NOT_FOUND : Int := -5

/-! ### Device.controlTransfer (src/index.ts lines 270-320) -/

/-- The `data_or_length` argument of `Device.controlTransfer`: either an
integer length (IN transfers) or a byte buffer (OUT transfers). -/
inductive CtArg
  | len (n : Nat)
  | buf (b : Buffer)

/-- `var isIn = !!(bmRequestType & usb.LIBUSB_ENDPOINT_IN)`. -/
def isInDir (bmRequestType : Nat) : Bool := bmRequestType &&& LIBUSB_ENDPOINT_IN != 0

/-- The 8-byte control setup packet written at the start of the transfer
buffer: `writeUInt8(bmRequestType, 0)`, `writeUInt8(bRequest, 1)`,
`writeUInt16LE(wValue, 2)`, `writeUInt16LE(wIndex, 4)`,
`writeUInt16LE(wLength, 6)`.  Node validates that each value fits its field
(it raises a range error otherwise), so the embedding writes the in-range
byte decomposition. -/
def setupPacket (bmRequestType bRequest wValue wIndex wLength : Nat) : Buffer :=
  [bmRequestType, bRequest,
   wValue % 256, wValue / 256,
   wIndex % 256, wIndex / 256,
   wLength % 256, wLength / 256]

/-- `usb.Device.prototype.controlTransfer` up to transfer submission: the
argument-kind check against the direction bit, `wLength` derivation, and the
construction of the buffer handed to `transfer.submit` (setup packet first,
then `wLength` zero bytes for IN, or the caller's data copied at offset
`SETUP_SIZE` for OUT).  A `TypeError` models the synchronous usage error. -/
def controlTransferBuf (bmRequestType bRequest wValue wIndex : Nat) (a : CtArg) :
    Except String Buffer :=
  if isInDir bmRequestType then
    match a with
    | .len n => .ok (setupPacket bmRequestType bRequest wValue wIndex n ++ List.replicate n 0)
    | .buf _ => .error "Expected size number for IN transfer (based on bmRequestType)"
  else
    match a with
    | .buf b => .ok (setupPacket bmRequestType bRequest wValue wIndex b.length ++ b)
    | .len _ => .error "Expected buffer for OUT transfer (based on bmRequestType)"

/-- On IN completion the callback receives
`buf.slice(SETUP_SIZE, SETUP_SIZE + actual)`. -/
def inCallbackData (buf : Buffer) (actual : Nat) : Buffer :=
  jsSlice buf SETUP_SIZE (SETUP_SIZE + actual)

/-- C1: for every `Device.controlTransfer` call whose argument kind matches
the direction bit of `bmRequestType`, the buffer submitted to the transfer
has length `wLength + 8` and its first 8 bytes are the setup packet
(`bmRequestType` at byte 0, `bRequest` at byte 1, `wValue` little-endian at
bytes 2-3, `wIndex` at bytes 4-5, `wLength` at bytes 6-7), where `wLength`
equals the supplied buffer's length for an OUT transfer (whose contents are
copied starting at offset 8) and equals the supplied integer for an IN
transfer; on IN completion the callback receives the buffer with the 8-byte
setup head stripped, of length equal to the actual transferred length (and
in every case never exceeding the requested length). -/
theorem controlTransfer_setup_spec (rt rq wv wi : Nat)
    (hrt : rt < 256) (hrq : rq < 256) (hwv : wv < 65536) (hwi : wi < 65536) :
    (∀ n, n < 65536 → isInDir rt = true →
      ∃ buf, controlTransferBuf rt rq wv wi (.len n) = .ok buf ∧
        buf.length = n + SETUP_SIZE ∧
        buf.getD 0 0 = rt ∧ buf.getD 1 0 = rq ∧
        buf.getD 2 0 + 256 * buf.getD 3 0 = wv ∧
        buf.getD 4 0 + 256 * buf.getD 5 0 = wi ∧
        buf.getD 6 0 + 256 * buf.getD 7 0 = n ∧
        ∀ actual, (inCallbackData buf actual).length = min actual n) ∧
    (∀ b : Buffer, b.length < 65536 → isInDir rt = false →
      ∃ buf, controlTransferBuf rt rq wv wi (.buf b) = .ok buf ∧
        buf.length = b.length + SETUP_SIZE ∧
        buf.take SETUP_SIZE = setupPacket rt rq wv wi b.length ∧
        buf.getD 6 0 + 256 * buf.getD 7 0 = b.length ∧
        buf.drop SETUP_SIZE = b) := by
  constructor
  · intro n hn hin
    refine ⟨setupPacket rt rq wv wi n ++ List.replicate n 0, ?_, ?_, ?_, ?_, ?_, ?_, ?_, ?_⟩
    · simp [controlTransferBuf, hin]
    · simp [setupPacket, SETUP_SIZE]
    · rfl
    · rfl
    · show wv % 256 + 256 * (wv / 256) = wv; omega
    · show wi % 256 + 256 * (wi / 256) = wi; omega
    · show n % 256 + 256 * (n / 256) = n; omega
    · intro actual
      have hlen : (setupPacket rt rq wv wi n ++ List.replicate n 0).length = n + 8 := by
        simp [setupPacket]
      simp only [inCallbackData, jsSlice, SETUP_SIZE, List.length_drop, List.length_take, hlen]
      omega
  · intro b hb hout
    refine ⟨setupPacket rt rq wv wi b.length ++ b, ?_, ?_, ?_, ?_, ?_⟩
    · simp [controlTransferBuf, hout]
    · simp [setupPacket, SETUP_SIZE]
    · rfl
    · show b.length % 256 + 256 * (b.length / 256) = b.length; omega
    · rfl

/-- Witness for `controlTransfer_setup_spec`: a concrete IN transfer
(`bmRequestType = 0x80`, requested length 4) and a concrete OUT transfer
(`bmRequestType = 0`, payload `[5, 6, 7]`). -/
theorem controlTransfer_setup_spec_witness :
    (∃ buf, controlTransferBuf 128 6 3 2 (.len 4) = .ok buf ∧
        buf.length = 4 + SETUP_SIZE ∧
        buf.getD 0 0 = 128 ∧ buf.getD 1 0 = 6 ∧
        buf.getD 2 0 + 256 * buf.getD 3 0 = 3 ∧
        buf.getD 4 0 + 256 * buf.getD 5 0 = 2 ∧
        buf.getD 6 0 + 256 * buf.getD 7 0 = 4 ∧
        ∀ actual, (inCallbackData buf actual).length = min actual 4) ∧
    (∃ buf, controlTransferBuf 0 9 1 0 (.buf [5, 6, 7]) = .ok buf ∧
        buf.length = List.length [5, 6, 7] + SETUP_SIZE ∧
        buf.take SETUP_SIZE = setupPacket 0 9 1 0 (List.length [5, 6, 7]) ∧
        buf.getD 6 0 + 256 * buf.getD 7 0 = List.length [5, 6, 7] ∧
        buf.drop SETUP_SIZE = [5, 6, 7]) :=
  ⟨(controlTransfer_setup_spec 128 6 3 2 (by decide) (by decide) (by decide)
      (by decide)).1 4 (by decide) (by decide),
   (controlTransfer_setup_spec 0 9 1 0 (by decide) (by decide) (by decide)
      (by decide)).2 [5, 6, 7] (by decide) (by decide)⟩

/-! ### BOS descriptor retrieval and parsing (src/index.ts lines 143-226) -/

/-- One parsed capability record (`capability` object built in the BOS
parse loop). -/
structure CapabilityRec where
  bLength : Nat
  bDescriptorType : Nat
  bDevCapabilityType : Nat
  dev_capability_data : Buffer
deriving Repr, DecidableEq

/-- The parsed BOS descriptor object. -/
structure BosDescriptor where
  bLength : Nat
  bDescriptorType : Nat
  wTotalLength : Nat
  bNumDeviceCaps : Nat
  capabilities : List CapabilityRec
deriving Repr, DecidableEq

/-- The `while (i < descriptor.wTotalLength)` capability walk: at offset `i`
read the record's own `bLength` (first byte), build the capability with
`dev_capability_data = buffer.slice(i + 3, i + bLength)`, and advance by
`bLength`.  The source loop has no fuel; it diverges when a record declares
`bLength = 0`, so the embedding carries an explicit fuel argument (the
theorems only concern well-formed descriptors, where records are nonempty
and the fuel `wTotalLength` is never exhausted). -/
def parseCaps (buf : Buffer) (wTotalLength : Nat) : Nat → Nat → List CapabilityRec
  | _, 0 => []
  | i, fuel + 1 =>
    if i < wTotalLength then
      { bLength := readUInt8 buf i
        bDescriptorType := readUInt8 buf (i + 1)
        bDevCapabilityType := readUInt8 buf (i + 2)
        dev_capability_data := jsSlice buf (i + 3) (i + readUInt8 buf i) } ::
        parseCaps buf wTotalLength (i + readUInt8 buf i) fuel
    else []

/-- Parsing of the second-phase BOS response buffer (the `descriptor` object
built in `getBosDescriptor`): header fields from the first five bytes, then
the capability walk starting at `LIBUSB_DT_BOS_SIZE`. -/
def parseBos (buf : Buffer) : BosDescriptor :=
  { bLength := readUInt8 buf 0
    bDescriptorType := readUInt8 buf 1
    wTotalLength := readUInt16LE buf 2
    bNumDeviceCaps := readUInt8 buf 4
    capabilities := parseCaps buf (readUInt16LE buf 2) LIBUSB_DT_BOS_SIZE (readUInt16LE buf 2) }

/-- Outcome of one control-transfer phase, as delivered by the native engine
to the completion callback. -/
inductive Phase
  | success (buf : Buffer)
  | failure (errno : Int)
deriving Repr, DecidableEq

/-- How the `getBosDescriptor` promise settles. -/
inductive BosOutcome
  | resolvedNull
  | resolved (d : BosDescriptor)
  | rejected (errno : Int)
deriving Repr, DecidableEq

/-- `DeviceExtensions.getBosDescriptor`, with the two phase outcomes supplied
by the environment: return the cache when present; resolve `null` without
any transfer when `bcdUSB < 0x201`; otherwise resolve `null` on a
`LIBUSB_TRANSFER_STALL` error in either phase, reject on any other error,
and parse the second-phase buffer on success.  The second component counts
the control transfers issued. -/
def getBosDescriptorRun (cache : Option BosDescriptor) (bcdUSB : Nat)
    (phase1 phase2 : Phase) : BosOutcome × Nat :=
  match cache with
  | some d => (.resolved d, 0)
  | none =>
    if bcdUSB < 0x201 then
      (.resolvedNull, 0)
    else
      match phase1 with
      | .failure e =>
        (if e = LIBUSB_TRANSFER_STALL then .resolvedNull else .rejected e, 1)
      | .success _ =>
        match phase2 with
        | .failure e =>
          (if e = LIBUSB_TRANSFER_STALL then .resolvedNull else .rejected e, 2)
        | .success buf2 => (.resolved (parseBos buf2), 2)

/-- A `Capability` object (`new Capability(device, id)`): its `type` is the
record's `bDevCapabilityType` and its `data` the record's
`dev_capability_data`. -/
structure CapObj where
  id : Nat
  type : Nat
  data : Buffer
deriving Repr, DecidableEq

/-- `DeviceExtensions.getCapabilities`: one `Capability` per entry of the
cached BOS descriptor's capability list (none when the descriptor is null). -/
def getCapabilitiesRun (d : Option BosDescriptor) : List CapObj :=
  match d with
  | none => []
  | some desc =>
    (List.range desc.capabilities.length).map fun i =>
      let c := desc.capabilities.getD i ⟨0, 0, 0, []⟩
      { id := i, type := c.bDevCapabilityType, data := c.dev_capability_data }

/-! ### Helper lemmas about list reads used by the BOS parse proof -/

lemma getD_append_add (l1 l2 : Buffer) (k d : Nat) :
    (l1 ++ l2).getD (l1.length + k) d = l2.getD k d := by
  simp [List.getD, List.getElem?_append_right]

lemma getD_append_mid (pre r fl : Buffer) (k d : Nat) (hk : k < r.length) :
    (pre ++ (r ++ fl)).getD (pre.length + k) d = r.getD k d := by
  rw [getD_append_add, List.getD_append _ _ _ _ hk]

lemma slice_append_mid (pre r fl : Buffer) :
    jsSlice ((pre ++ r) ++ fl) (pre.length + 3) (pre.length + r.length) = r.drop 3 := by
  rw [jsSlice]
  have h1 : pre.length + r.length = (pre ++ r).length := (List.length_append ..).symm
  rw [h1, List.take_left, List.drop_append 3]

lemma length_le_sum_lengths (records : List Buffer)
    (hwf : ∀ r ∈ records, 3 ≤ r.length ∧ r.getD 0 0 = r.length) :
    records.length ≤ (records.map List.length).sum := by
  induction records with
  | nil => simp
  | cons r rs ih =>
    have h1 := hwf r (List.mem_cons_self ..)
    have h2 := ih fun x hx => hwf x (List.mem_cons_of_mem _ hx)
    simp only [List.map_cons, List.sum_cons, List.length_cons]
    omega

/-- The capability walk over a buffer laid out as a block of already
consumed bytes followed by the concatenation of self-delimiting records
parses exactly those records. -/
lemma parseCaps_append (records : List Buffer) :
    ∀ (pre : Buffer) (w fuel : Nat),
      (∀ r ∈ records, 3 ≤ r.length ∧ r.getD 0 0 = r.length) →
      w = pre.length + (records.map List.length).sum →
      records.length ≤ fuel →
      parseCaps (pre ++ records.flatten) w pre.length fuel =
        records.map fun r =>
          { bLength := r.length, bDescriptorType := r.getD 1 0,
            bDevCapabilityType := r.getD 2 0, dev_capability_data := r.drop 3 } := by
  induction records with
  | nil =>
    intro pre w fuel hwf hw hfuel
    cases fuel with
    | zero => rw [parseCaps]; simp
    | succ f =>
      rw [parseCaps]
      have : ¬ pre.length < w := by simp at hw; omega
      simp [this]
  | cons r rs ih =>
    intro pre w fuel hwf hw hfuel
    obtain ⟨hr3, hr0⟩ := hwf r (List.mem_cons_self ..)
    cases fuel with
    | zero => exact absurd hfuel (by simp)
    | succ f =>
      have hflat : (r :: rs).flatten = r ++ rs.flatten := List.flatten_cons ..
      have hlt : pre.length < w := by
        simp only [List.map_cons, List.sum_cons] at hw
        omega
      have h0 : readUInt8 (pre ++ (r :: rs).flatten) pre.length = r.length := by
        rw [readUInt8, hflat]
        have := getD_append_mid pre r rs.flatten 0 0 (by omega)
        rw [Nat.add_zero] at this
        rw [this, hr0]
      have h1 : readUInt8 (pre ++ (r :: rs).flatten) (pre.length + 1) = r.getD 1 0 := by
        rw [readUInt8, hflat]; exact getD_append_mid pre r rs.flatten 1 0 (by omega)
      have h2 : readUInt8 (pre ++ (r :: rs).flatten) (pre.length + 2) = r.getD 2 0 := by
        rw [readUInt8, hflat]; exact getD_append_mid pre r rs.flatten 2 0 (by omega)
      have hslice : jsSlice (pre ++ (r :: rs).flatten) (pre.length + 3)
          (pre.length + r.length) = r.drop 3 := by
        rw [hflat, ← List.append_assoc]
        exact slice_append_mid pre r rs.flatten
      rw [parseCaps, if_pos hlt, h0, h1, h2, hslice]
      have hrest : parseCaps (pre ++ (r :: rs).flatten) w (pre.length + r.length) f =
          rs.map fun x =>
            { bLength := x.length, bDescriptorType := x.getD 1 0,
              bDevCapabilityType := x.getD 2 0, dev_capability_data := x.drop 3 } := by
        have hpre : pre ++ (r :: rs).flatten = (pre ++ r) ++ rs.flatten := by
          rw [hflat, List.append_assoc]
        have hw2 : w = (pre ++ r).length + (rs.map List.length).sum := by
          simp only [List.map_cons, List.sum_cons, List.length_append] at hw ⊢
          omega
        have hlen : pre.length + r.length = (pre ++ r).length := (List.length_append ..).symm
        rw [hpre, hlen]
        exact ih (pre ++ r) w f (fun x hx => hwf x (List.mem_cons_of_mem _ hx)) hw2 (by
          simp only [List.length_cons] at hfuel; omega)
      rw [hrest, List.map_cons]

/-- The second-phase BOS response buffer assembled from a 5-byte header and
a list of capability records; the `wTotalLength` field holds
`5 + sum of record lengths`, written little-endian. -/
def bosBuffer (bLen bDesc nCaps : Nat) (records : List Buffer) : Buffer :=
  [bLen, bDesc, (5 + (records.map List.length).sum) % 256,
   (5 + (records.map List.length).sum) / 256, nCaps] ++ records.flatten

/-- C5: with no cached descriptor, `getBosDescriptor` resolves to a null
result, not an error, exactly when the device descriptor's `bcdUSB` is below
`0x0201` (in which case it resolves without issuing any control transfer) or
when either of the two control-transfer phases completes with a
`LIBUSB_TRANSFER_STALL` error; any other transfer error rejects the promise
with that error. -/
theorem getBosDescriptor_null_iff (bcdUSB : Nat) (p1 p2 : Phase) :
    ((getBosDescriptorRun none bcdUSB p1 p2).1 = .resolvedNull ↔
      bcdUSB < 0x201 ∨ p1 = .failure LIBUSB_TRANSFER_STALL ∨
        ((∃ b, p1 = .success b) ∧ p2 = .failure LIBUSB_TRANSFER_STALL)) ∧
    (bcdUSB < 0x201 → (getBosDescriptorRun none bcdUSB p1 p2).2 = 0) ∧
    (∀ e, ¬ bcdUSB < 0x201 → p1 = .failure e → e ≠ LIBUSB_TRANSFER_STALL →
      (getBosDescriptorRun none bcdUSB p1 p2).1 = .rejected e) ∧
    (∀ e b, ¬ bcdUSB < 0x201 → p1 = .success b → p2 = .failure e →
      e ≠ LIBUSB_TRANSFER_STALL →
      (getBosDescriptorRun none bcdUSB p1 p2).1 = .rejected e) := by
  by_cases h : bcdUSB < 0x201
  · simp [getBosDescriptorRun, h]
  · cases p1 with
    | failure e =>
      by_cases he : e = LIBUSB_TRANSFER_STALL
      · subst he; simp [getBosDescriptorRun, h]
      · simp [getBosDescriptorRun, h, he]
    | success b1 =>
      cases p2 with
      | failure e =>
        by_cases he : e = LIBUSB_TRANSFER_STALL
        · subst he; simp [getBosDescriptorRun, h]
        · simp [getBosDescriptorRun, h, he]
      | success b2 => simp [getBosDescriptorRun, h]

/-- Witness for `getBosDescriptor_null_iff`: at `bcdUSB = 0x200` no transfer
is issued; at `bcdUSB = 0x210` a first-phase error other than a stall
rejects; a first-phase stall resolves null. -/
theorem getBosDescriptor_null_iff_witness :
    (getBosDescriptorRun none 0x200 (.failure 1) (.failure 1)).2 = 0 ∧
    (getBosDescriptorRun none 0x210 (.failure 1) (.success [])).1 = .rejected 1 ∧
    (getBosDescriptorRun none 0x210 (.failure 4) (.success [])).1 = .resolvedNull :=
  ⟨(getBosDescriptor_null_iff 0x200 (.failure 1) (.failure 1)).2.1 (by decide),
   (getBosDescriptor_null_iff 0x210 (.failure 1) (.success [])).2.2.1 1
     (by decide) rfl (by decide),
   (getBosDescriptor_null_iff 0x210 (.failure 4) (.success [])).1.mpr
     (Or.inr (Or.inl rfl))⟩

/-- C6: for a well-formed second-phase BOS buffer — each capability record
is self-delimiting (first byte equals its own length, at least 3) and the
record lengths plus the 5-byte header sum to `wTotalLength`, with
`bNumDeviceCaps` the record count — the parser reads `wTotalLength`
little-endian from bytes 2-3 and walks the records from offset 5, producing
one capability per record with payload bytes `3..bLength`, so the number of
parsed capabilities equals `bNumDeviceCaps`, and `getCapabilities` yields
exactly that many `Capability` objects, each whose `type` is byte 2 of its
record. -/
theorem bos_parse_spec (bLen bDesc nCaps : Nat) (records : List Buffer)
    (hwf : ∀ r ∈ records, 3 ≤ r.length ∧ r.getD 0 0 = r.length)
    (hn : nCaps = records.length)
    (hw : 5 + (records.map List.length).sum < 65536) :
    (parseBos (bosBuffer bLen bDesc nCaps records)).wTotalLength =
        5 + (records.map List.length).sum ∧
    (parseBos (bosBuffer bLen bDesc nCaps records)).bNumDeviceCaps = nCaps ∧
    (parseBos (bosBuffer bLen bDesc nCaps records)).capabilities =
      (records.map fun r =>
        { bLength := r.length, bDescriptorType := r.getD 1 0,
          bDevCapabilityType := r.getD 2 0, dev_capability_data := r.drop 3 }) ∧
    (parseBos (bosBuffer bLen bDesc nCaps records)).capabilities.length = nCaps ∧
    getCapabilitiesRun (some (parseBos (bosBuffer bLen bDesc nCaps records))) =
      ((List.range records.length).map fun i =>
        { id := i, type := (records.getD i []).getD 2 0,
          data := (records.getD i []).drop 3 }) ∧
    (getCapabilitiesRun (some (parseBos (bosBuffer bLen bDesc nCaps records)))).length
      = nCaps := by
  have hw16 : readUInt16LE (bosBuffer bLen bDesc nCaps records) 2 =
      5 + (records.map List.length).sum := by
    show (5 + (records.map List.length).sum) % 256 +
        256 * ((5 + (records.map List.length).sum) / 256) =
      5 + (records.map List.length).sum
    omega
  have hcaps : (parseBos (bosBuffer bLen bDesc nCaps records)).capabilities =
      records.map fun r =>
        { bLength := r.length, bDescriptorType := r.getD 1 0,
          bDevCapabilityType := r.getD 2 0, dev_capability_data := r.drop 3 } := by
    show parseCaps (bosBuffer bLen bDesc nCaps records)
        (readUInt16LE (bosBuffer bLen bDesc nCaps records) 2) LIBUSB_DT_BOS_SIZE
        (readUInt16LE (bosBuffer bLen bDesc nCaps records) 2) = _
    rw [hw16]
    have hfuel : records.length ≤ 5 + (records.map List.length).sum := by
      have := length_le_sum_lengths records hwf
      omega
    exact parseCaps_append records
      [bLen, bDesc, (5 + (records.map List.length).sum) % 256,
       (5 + (records.map List.length).sum) / 256, nCaps]
      (5 + (records.map List.length).sum) (5 + (records.map List.length).sum)
      hwf (by simp) hfuel
  refine ⟨hw16, rfl, hcaps, ?_, ?_, ?_⟩
  · rw [hcaps, List.length_map, hn]
  · rw [getCapabilitiesRun, hcaps, List.length_map]
    apply List.map_congr_left
    intro i hi
    have hi2 : i < records.length := List.mem_range.mp hi
    have hmap : ((records.map fun r =>
        ({ bLength := r.length, bDescriptorType := r.getD 1 0,
           bDevCapabilityType := r.getD 2 0,
           dev_capability_data := r.drop 3 } : CapabilityRec)).getD i ⟨0, 0, 0, []⟩) =
        { bLength := (records.getD i []).length,
          bDescriptorType := (records.getD i []).getD 1 0,
          bDevCapabilityType := (records.getD i []).getD 2 0,
          dev_capability_data := (records.getD i []).drop 3 } := by
      rw [List.getD_eq_getElem _ _ (by simpa using hi2), List.getD_eq_getElem _ _ hi2]
      simp
    rw [hmap]
  · rw [getCapabilitiesRun, hcaps, List.length_map, List.length_map,
      List.length_range, hn]

/-- Witness for `bos_parse_spec`: the specification's scenario, a BOS buffer
with `wTotalLength = 22`, `bNumDeviceCaps = 2` and two capability records of
lengths 7 and 10 (5 + 7 + 10 = 22), producing exactly 2 capabilities of
types 2 and 3. -/
theorem bos_parse_spec_witness :
    (parseBos (bosBuffer 5 15 2
        [[7, 16, 2, 0, 0, 0, 0], [10, 16, 3, 1, 1, 1, 1, 1, 1, 1]])).wTotalLength = 22 ∧
    (parseBos (bosBuffer 5 15 2
        [[7, 16, 2, 0, 0, 0, 0], [10, 16, 3, 1, 1, 1, 1, 1, 1, 1]])).bNumDeviceCaps = 2 ∧
    (parseBos (bosBuffer 5 15 2
        [[7, 16, 2, 0, 0, 0, 0], [10, 16, 3, 1, 1, 1, 1, 1, 1, 1]])).capabilities =
      [{ bLength := 7, bDescriptorType := 16, bDevCapabilityType := 2,
         dev_capability_data := [0, 0, 0, 0] },
       { bLength := 10, bDescriptorType := 16, bDevCapabilityType := 3,
         dev_capability_data := [1, 1, 1, 1, 1, 1, 1] }] ∧
    (parseBos (bosBuffer 5 15 2
        [[7, 16, 2, 0, 0, 0, 0], [10, 16, 3, 1, 1, 1, 1, 1, 1, 1]])).capabilities.length
      = 2 ∧
    getCapabilitiesRun (some (parseBos (bosBuffer 5 15 2
        [[7, 16, 2, 0, 0, 0, 0], [10, 16, 3, 1, 1, 1, 1, 1, 1, 1]]))) =
      [{ id := 0, type := 2, data := [0, 0, 0, 0] },
       { id := 1, type := 3, data := [1, 1, 1, 1, 1, 1, 1] }] ∧
    (getCapabilitiesRun (some (parseBos (bosBuffer 5 15 2
        [[7, 16, 2, 0, 0, 0, 0], [10, 16, 3, 1, 1, 1, 1, 1, 1, 1]])))).length = 2 :=
  bos_parse_spec 5 15 2 [[7, 16, 2, 0, 0, 0, 0], [10, 16, 3, 1, 1, 1, 1, 1, 1, 1]]
    (by decide) (by decide) (by decide)

/-! ### Device descriptor caching, open, setConfiguration
    (src/index.ts lines 72-108 and 228-241) -/

/-- A configuration descriptor as far as the embedded operations look at it:
a tag distinguishing descriptors and the length of its `interfaces` list. -/
structure ConfigDesc where
  tag : Nat
  numInterfaces : Nat
deriving Repr, DecidableEq

/-- Mutable fields of a `Device` object: the native active configuration
value, the `_configDescriptor` and `_allConfigDescriptors` caches, and the
`interfaces` list (`none` models the JavaScript `null`/uninitialised state;
interfaces are represented by their indices). -/
structure Dev where
  activeConfig : Nat
  cfgCache : Option ConfigDesc
  allCfgCache : Option (List ConfigDesc)
  interfaces : Option (List Nat)
deriving Repr, DecidableEq

/-- The `configDescriptor` getter: return the `_configDescriptor` cache when
set, otherwise call the native `__getConfigDescriptor` (modelled by `env`
applied to the current active configuration), caching a successful result;
a `LIBUSB_ERROR_NOT_FOUND` error yields `null` (uncached), any other error
propagates. -/
def configDescriptorGet (env : Nat → Except Int ConfigDesc) (d : Dev) :
    Except Int (Option ConfigDesc) × Dev :=
  match d.cfgCache with
  | some c => (.ok (some c), d)
  | none =>
    match env d.activeConfig with
    | .ok c => (.ok (some c), { d with cfgCache := some c })
    | .error e =>
      if e = LIBUSB_ERROR_NOT_FOUND then (.ok none, d) else (.error e, d)

/-- The `allConfigDescriptors` getter: analogous, with
`LIBUSB_ERROR_NOT_FOUND` yielding the empty list (uncached); `envAll` models
the native `__getAllConfigDescriptors` result. -/
def allConfigDescriptorsGet (envAll : Except Int (List ConfigDesc)) (d : Dev) :
    Except Int (List ConfigDesc) × Dev :=
  match d.allCfgCache with
  | some cs => (.ok cs, d)
  | none =>
    match envAll with
    | .ok cs => (.ok cs, { d with allCfgCache := some cs })
    | .error e =>
      if e = LIBUSB_ERROR_NOT_FOUND then (.ok [], d) else (.error e, d)

/-- The interface-list rebuild shared verbatim by `open` and the
`setConfiguration` success callback: `this.interfaces = []`, then one
`Interface` per entry of `this.configDescriptor.interfaces` (zero when the
descriptor is null); an exception from the getter propagates. -/
def buildInterfaces (env : Nat → Except Int ConfigDesc) (d : Dev) :
    Except Int Unit × Dev :=
  let d0 : Dev := { d with interfaces := some [] }
  match configDescriptorGet env d0 with
  | (.ok (some c), d1) => (.ok (), { d1 with interfaces := some (List.range c.numInterfaces) })
  | (.ok none, d1) => (.ok (), { d1 with interfaces := some [] })
  | (.error e, d1) => (.error e, d1)

/-- `DeviceExtensions.open` after the native `__open` call: the interface
rebuild. -/
def openRun (env : Nat → Except Int ConfigDesc) (d : Dev) : Except Int Unit × Dev :=
  buildInterfaces env d

/-- `DeviceExtensions.setConfiguration`: the native `__setConfiguration`
call (its outcome supplied as `nativeErr`, a success switching the active
configuration to `desired`), then on success the same interface rebuild as
`open`; on failure the promise rejects with the native error and the device
state is untouched. -/
def setConfigurationRun (env : Nat → Except Int ConfigDesc) (d : Dev)
    (desired : Nat) (nativeErr : Option Int) : Except Int Unit × Dev :=
  match nativeErr with
  | some e => (.error e, d)
  | none => buildInterfaces env { d with activeConfig := desired }

/-- C7: `setConfiguration` performs the native configuration call and then,
on success, rebuilds the device's interfaces list by exactly the rule `open`
uses — one `Interface` per entry of the configuration descriptor's interface
list; on failure it rejects with the native error and leaves the previously
built interfaces list (and all other device state) unchanged. -/
theorem setConfiguration_spec (env : Nat → Except Int ConfigDesc) (d : Dev)
    (desired : Nat) :
    (∀ e, setConfigurationRun env d desired (some e) = (.error e, d)) ∧
    (setConfigurationRun env d desired none =
      openRun env { d with activeConfig := desired }) ∧
    (∀ c d1,
      configDescriptorGet env
          { d with activeConfig := desired, interfaces := some [] } =
        (.ok (some c), d1) →
      setConfigurationRun env d desired none =
        (.ok (), { d1 with interfaces := some (List.range c.numInterfaces) })) := by
  refine ⟨fun e => rfl, rfl, fun c d1 h => ?_⟩
  have h2 : configDescriptorGet env
      { { d with activeConfig := desired } with interfaces := some [] } =
      (.ok (some c), d1) := h
  show buildInterfaces env { d with activeConfig := desired } = _
  rw [buildInterfaces, h2]

/-- Witness for `setConfiguration_spec`: a successful configuration change
on a fresh device with a 2-interface descriptor rebuilds `interfaces` to two
entries. -/
theorem setConfiguration_spec_witness :
    setConfigurationRun (fun _ => .ok ⟨7, 2⟩) ⟨1, none, none, none⟩ 3 none =
      (.ok (), ⟨3, some ⟨7, 2⟩, none, some (List.range 2)⟩) :=
  (setConfiguration_spec (fun _ => .ok ⟨7, 2⟩) ⟨1, none, none, none⟩ 3).2.2 ⟨7, 2⟩
    ⟨3, some ⟨7, 2⟩, none, some []⟩ rfl

/-- C8 (amended): `configDescriptor` and `allConfigDescriptors` cache the
first successfully fetched value and afterwards return it without consulting
the native layer (the result no longer depends on `env`); a native
`LIBUSB_ERROR_NOT_FOUND` yields `null` for `configDescriptor` and an empty
list for `allConfigDescriptors` (and is not cached); any other native error
propagates; and — contrary to the original claim — a successful
configuration change does **not** invalidate the `_configDescriptor` cache. -/
theorem configDescriptor_cache_spec (env : Nat → Except Int ConfigDesc)
    (envAll : Except Int (List ConfigDesc)) (d : Dev) :
    (∀ c, d.cfgCache = some c → configDescriptorGet env d = (.ok (some c), d)) ∧
    (∀ c, d.cfgCache = none → env d.activeConfig = .ok c →
      configDescriptorGet env d = (.ok (some c), { d with cfgCache := some c })) ∧
    (d.cfgCache = none → env d.activeConfig = .error LIBUSB_ERROR_NOT_FOUND →
      configDescriptorGet env d = (.ok none, d)) ∧
    (∀ e, d.cfgCache = none → env d.activeConfig = .error e →
      e ≠ LIBUSB_ERROR_NOT_FOUND → configDescriptorGet env d = (.error e, d)) ∧
    (∀ cs, d.allCfgCache = some cs → allConfigDescriptorsGet envAll d = (.ok cs, d)) ∧
    (∀ cs, d.allCfgCache = none → envAll = .ok cs →
      allConfigDescriptorsGet envAll d = (.ok cs, { d with allCfgCache := some cs })) ∧
    (d.allCfgCache = none → envAll = .error LIBUSB_ERROR_NOT_FOUND →
      allConfigDescriptorsGet envAll d = (.ok [], d)) ∧
    (∀ e, d.allCfgCache = none → envAll = .error e → e ≠ LIBUSB_ERROR_NOT_FOUND →
      allConfigDescriptorsGet envAll d = (.error e, d)) ∧
    (∀ c desired, d.cfgCache = some c →
      ((setConfigurationRun env d desired none).2).cfgCache = some c) := by
  refine ⟨?_, ?_, ?_, ?_, ?_, ?_, ?_, ?_, ?_⟩
  · intro c hc; rw [configDescriptorGet, hc]
  · intro c hc henv; rw [configDescriptorGet, hc, henv]
  · intro hc henv; rw [configDescriptorGet, hc, henv]; simp
  · intro e hc henv hne; rw [configDescriptorGet, hc, henv]; simp [hne]
  · intro cs hc; rw [allConfigDescriptorsGet.eq_def, hc]
  · intro cs hc henv; rw [allConfigDescriptorsGet.eq_def, hc, henv]
  · intro hc henv; rw [allConfigDescriptorsGet.eq_def, hc, henv]; simp
  · intro e hc henv hne; rw [allConfigDescriptorsGet.eq_def, hc, henv]; simp [hne]
  · intro c desired hc
    show (buildInterfaces env { d with activeConfig := desired }).2.cfgCache = some c
    have h2 : configDescriptorGet env
        { { d with activeConfig := desired } with interfaces := some [] } =
        (.ok (some c), { { d with activeConfig := desired } with interfaces := some [] }) := by
      rw [configDescriptorGet]
      simp only [hc]
    rw [buildInterfaces, h2]
    exact hc

/-- Witness for `configDescriptor_cache_spec`: a cached descriptor is
returned as-is, and a first access caches the native result. -/
theorem configDescriptor_cache_spec_witness :
    configDescriptorGet (fun _ => .ok ⟨9, 1⟩) ⟨1, some ⟨3, 1⟩, none, none⟩ =
      (.ok (some ⟨3, 1⟩), ⟨1, some ⟨3, 1⟩, none, none⟩) ∧
    configDescriptorGet (fun _ => .ok ⟨9, 1⟩) ⟨1, none, none, none⟩ =
      (.ok (some ⟨9, 1⟩), ⟨1, some ⟨9, 1⟩, none, none⟩) :=
  ⟨(configDescriptor_cache_spec (fun _ => .ok ⟨9, 1⟩) (.ok [])
      ⟨1, some ⟨3, 1⟩, none, none⟩).1 ⟨3, 1⟩ rfl,
   (configDescriptor_cache_spec (fun _ => .ok ⟨9, 1⟩) (.ok [])
      ⟨1, none, none, none⟩).2.1 ⟨9, 1⟩ rfl rfl⟩

/-- C8 counterexample: the `_configDescriptor` cache is **not** invalidated
by a configuration change.  A first access against active configuration 1
caches descriptor `⟨10, 1⟩`; a successful `setConfiguration(2)` switches the
native active configuration so a fresh native fetch would return `⟨20, 2⟩`;
yet the getter still returns the stale cached `⟨10, 1⟩`, contradicting the
claim that repeated accesses return the cached value only "until a
configuration change invalidates it". -/
theorem configDescriptor_stale_after_setConfiguration :
    configDescriptorGet (fun n => if n = 1 then .ok ⟨10, 1⟩ else .ok ⟨20, 2⟩)
        ⟨1, none, none, some []⟩ =
      (.ok (some ⟨10, 1⟩), ⟨1, some ⟨10, 1⟩, none, some []⟩) ∧
    setConfigurationRun (fun n => if n = 1 then .ok ⟨10, 1⟩ else .ok ⟨20, 2⟩)
        ⟨1, some ⟨10, 1⟩, none, some []⟩ 2 none =
      (.ok (), ⟨2, some ⟨10, 1⟩, none, some [0]⟩) ∧
    configDescriptorGet (fun n => if n = 1 then .ok ⟨10, 1⟩ else .ok ⟨20, 2⟩)
        ⟨2, some ⟨10, 1⟩, none, some [0]⟩ =
      (.ok (some ⟨10, 1⟩), ⟨2, some ⟨10, 1⟩, none, some [0]⟩) ∧
    (fun n => if n = 1 then (.ok ⟨10, 1⟩ : Except Int ConfigDesc) else .ok ⟨20, 2⟩) 2 =
      .ok ⟨20, 2⟩ ∧
    (⟨10, 1⟩ : ConfigDesc) ≠ ⟨20, 2⟩ :=
  ⟨rfl, rfl, rfl, rfl, by decide⟩

/-! ### Endpoint streaming engine (src/index.ts lines 434-559) -/

/-- Events emitted by an `InEndpoint` while polling. -/
inductive Ev
  | data (b : Buffer)
  | err
  | endEv
deriving Repr, DecidableEq

/-- Poll-related fields of an `Endpoint` object.  `pollTransfersPresent`
models whether `this.pollTransfers` is set (it is deleted when the drain
finishes); `numSlots` is its length; `inFlight` counts submitted, unsettled
transfers. -/
structure EpState where
  pollTransfersPresent : Bool
  numSlots : Nat
  pollTransferSize : Nat
  pollActive : Bool
  pollPending : Int
  inFlight : Nat
deriving Repr, DecidableEq

/-- JavaScript `x || d` for an optional numeric argument (`0` and
`undefined` are both falsy). -/
def jsOr (v : Option Nat) (d : Nat) : Nat :=
  match v with
  | none => d
  | some n => if n = 0 then d else n

/-- `Endpoint.stopPoll` up to its `await once(this, 'end')`: throw a usage
error when `this.pollTransfers` is unset; otherwise call `cancel()` on every
transfer of the pool — a throwing cancel (slot `i` with `cancelFails.getD i
false = true`) is reported as an `error` event and the loop continues — and
set `pollActive = false`. -/
def stopPollRun (s : EpState) (cancelFails : List Bool) :
    Except String (EpState × List Ev) :=
  if s.pollTransfersPresent = false then
    .error "Polling is not active."
  else
    .ok ({ s with pollActive := false },
      ((List.range s.numSlots).filter fun i => cancelFails.getD i false).map fun _ => Ev.err)

/-- The `transferDone` completion callback of `InEndpoint.startPoll`, for
one settled transfer (which leaves the in-flight set on entry): with no
error, emit `data` with `buf.slice(0, actual)`; with an error other than
`LIBUSB_TRANSFER_CANCELLED`, emit `error` and run the synchronous part of
`stopPoll`; then, if the pool is still active, resubmit a fresh
zero-initialised buffer of `pollTransferSize` bytes on the same slot (a
throwing submit — `submitOk = false` — emits `error` and runs `stopPoll`),
otherwise decrement `pollPending` and, when it reaches zero, delete the pool
and emit `end`.  The third component lists the buffers submitted. -/
def transferDoneRun (s : EpState) (errno : Option Int) (buf : Buffer) (actual : Nat)
    (cancelFails : List Bool) (submitOk : Bool) : EpState × List Ev × List Buffer :=
  let s0 : EpState := { s with inFlight := s.inFlight - 1 }
  let r1 : EpState × List Ev :=
    match errno with
    | none => (s0, [Ev.data (jsSlice buf 0 actual)])
    | some e =>
      if e = LIBUSB_TRANSFER_CANCELLED then (s0, [])
      else
        match stopPollRun s0 cancelFails with
        | .ok (s2, evs) => (s2, Ev.err :: evs)
        | .error _ => (s0, [Ev.err])
  if r1.1.pollActive then
    if submitOk then
      ({ r1.1 with inFlight := r1.1.inFlight + 1 }, r1.2,
        [List.replicate r1.1.pollTransferSize 0])
    else
      match stopPollRun r1.1 cancelFails with
      | .ok (s2, evs) => (s2, r1.2 ++ Ev.err :: evs, [])
      | .error _ => (r1.1, r1.2 ++ [Ev.err], [])
  else
    let s2 : EpState := { r1.1 with pollPending := r1.1.pollPending - 1 }
    if s2.pollPending = 0 then
      ({ s2 with pollTransfersPresent := false }, r1.2 ++ [Ev.endEv], [])
    else
      (s2, r1.2, [])

/-- The environment's view of one settled transfer: the completion arguments
plus the outcomes of any cancels/submits the callback itself performs. -/
structure Settle where
  errno : Option Int
  buf : Buffer
  actual : Nat
  cancelFails : List Bool
  submitOk : Bool

/-- A sequence of transfer completions delivered to `transferDone`,
accumulating emitted events and submitted buffers. -/
def runSettles (s : EpState) : List Settle → EpState × List Ev × List Buffer
  | [] => (s, [], [])
  | st :: rest =>
    let r1 := transferDoneRun s st.errno st.buf st.actual st.cancelFails st.submitOk
    let r2 := runSettles r1.1 rest
    (r2.1, r1.2.1 ++ r2.2.1, r1.2.2 ++ r2.2.2)

/-- `InEndpoint.startPoll` (with `Endpoint.startPollInternal`): throw when a
pool already exists; otherwise `nTransfers || 3` slots and
`transferSize || wMaxPacketSize` bytes, `pollActive = true`, submit a fresh
zero-initialised buffer on every slot (a throwing submit emits `error` and
runs the synchronous part of `stopPoll`, the loop continuing), and finally
set `pollPending` to the slot count. -/
def startPollRun (s : EpState) (nTransfers transferSize : Option Nat)
    (wMaxPacketSize : Nat) (submitOks : List Bool) (cancelFails : List Bool) :
    Except String (EpState × List Ev × List Buffer) :=
  if s.pollTransfersPresent then
    .error "Polling already active"
  else
    let n := jsOr nTransfers 3
    let size := jsOr transferSize wMaxPacketSize
    let init : EpState :=
      { pollTransfersPresent := true, numSlots := n, pollTransferSize := size,
        pollActive := true, pollPending := 0, inFlight := s.inFlight }
    let step : EpState × List Ev × List Buffer → Bool → EpState × List Ev × List Buffer :=
      fun acc ok =>
        if ok then
          ({ acc.1 with inFlight := acc.1.inFlight + 1 }, acc.2.1,
            acc.2.2 ++ [List.replicate size 0])
        else
          match stopPollRun acc.1 cancelFails with
          | .ok (s2, evs) => (s2, acc.2.1 ++ Ev.err :: evs, acc.2.2)
          | .error _ => (acc.1, acc.2.1 ++ [Ev.err], acc.2.2)
    let r := ((List.range n).map fun i => submitOks.getD i true).foldl step (init, [], [])
    .ok ({ r.1 with pollPending := (n : Int) }, r.2.1, r.2.2)

/-- C2: while a poll is Active, every transfer completion that carries no
error emits exactly one `data` event with the received bytes trimmed to the
actual length and immediately resubmits a single fresh zero-initialised
buffer of the poll transfer size on that same slot, leaving the endpoint
state — in particular the number of transfers in flight — unchanged; in
particular `startPoll(4, 64)` followed by 4 error-free completions of
actual length 64 fires 4 `data` events and leaves the pool Active with
exactly 4 transfers in flight. -/
theorem poll_active_data_resubmit (s : EpState) (buf : Buffer) (actual : Nat)
    (cf : List Bool) (hA : s.pollActive = true) (hIF : 1 ≤ s.inFlight) :
    transferDoneRun s none buf actual cf true =
      (s, [Ev.data (buf.take actual)], [List.replicate s.pollTransferSize 0]) ∧
    startPollRun ⟨false, 0, 0, false, 0, 0⟩ (some 4) (some 64) 512 [] [] =
      .ok (⟨true, 4, 64, true, 4, 4⟩, [], List.replicate 4 (List.replicate 64 0)) ∧
    runSettles ⟨true, 4, 64, true, 4, 4⟩
        (List.replicate 4 ⟨none, List.replicate 64 7, 64, [], true⟩) =
      (⟨true, 4, 64, true, 4, 4⟩, List.replicate 4 (Ev.data (List.replicate 64 7)),
        List.replicate 4 (List.replicate 64 0)) := by
  refine ⟨?_, by rfl, by rfl⟩
  obtain ⟨p, n, sz, a, pd, f⟩ := s
  dsimp only at hA hIF ⊢
  subst hA
  have hstep : transferDoneRun ⟨p, n, sz, true, pd, f⟩ none buf actual cf true =
      (⟨p, n, sz, true, pd, f - 1 + 1⟩, [Ev.data (buf.take actual)],
        [List.replicate sz 0]) := rfl
  rw [hstep]
  have hf : f - 1 + 1 = f := by omega
  rw [hf]

/-- Witness for `poll_active_data_resubmit`: one error-free completion on a
concrete Active pool of 4 slots. -/
theorem poll_active_data_resubmit_witness :
    transferDoneRun ⟨true, 4, 64, true, 4, 4⟩ none (List.replicate 64 7) 64 [] true =
      (⟨true, 4, 64, true, 4, 4⟩, [Ev.data ((List.replicate 64 7).take 64)],
        [List.replicate 64 0]) :=
  (poll_active_data_resubmit ⟨true, 4, 64, true, 4, 4⟩ (List.replicate 64 7) 64 []
    rfl (by decide)).1

/-- One settled transfer while the pool is no longer active (Draining):
no resubmission, the pending counter is decremented, and exactly when it
reaches zero the pool is deleted and `end` is emitted last; no `end` is
emitted otherwise. -/
lemma transferDone_drain_step (s : EpState) (errno : Option Int) (buf : Buffer)
    (actual : Nat) (cf : List Bool) (ok : Bool)
    (hA : s.pollActive = false) (hP : s.pollTransfersPresent = true) :
    ∃ evs1, Ev.endEv ∉ evs1 ∧
      transferDoneRun s errno buf actual cf ok =
        (if s.pollPending - 1 = 0 then
          ({ s with
              inFlight := s.inFlight - 1
              pollPending := s.pollPending - 1
              pollTransfersPresent := false }, evs1 ++ [Ev.endEv], [])
        else
          ({ s with
              inFlight := s.inFlight - 1
              pollPending := s.pollPending - 1 },
            evs1, [])) := by
  obtain ⟨p, n, sz, a, pd, f⟩ := s
  dsimp only at hA hP ⊢
  subst hA; subst hP
  cases errno with
  | none =>
    refine ⟨[Ev.data (jsSlice buf 0 actual)], by simp, ?_⟩
    by_cases hpd : pd - 1 = 0
    · simp [transferDoneRun, hpd]
    · simp [transferDoneRun, hpd]
  | some e =>
    by_cases he : e = LIBUSB_TRANSFER_CANCELLED
    · refine ⟨[], by simp, ?_⟩
      by_cases hpd : pd - 1 = 0
      · simp [transferDoneRun, he, hpd]
      · simp [transferDoneRun, he, hpd]
    · refine ⟨Ev.err ::
        (((List.range n).filter fun i => cf.getD i false).map fun _ => Ev.err),
        by simp, ?_⟩
      by_cases hpd : pd - 1 = 0
      · simp [transferDoneRun, stopPollRun, he, hpd]
      · simp [transferDoneRun, stopPollRun, he, hpd]

/-- Draining a pool with as many settlements as the pending count: every
settlement decrements the counter without resubmitting, and the run ends
with pending 0, the pool deleted, and a single `end` event as the very last
event. -/
lemma runSettles_drain (l : List Settle) :
    ∀ s : EpState, s.pollActive = false → s.pollTransfersPresent = true →
      s.pollPending = (l.length : Int) → l ≠ [] →
      ∃ s2 evs pre, runSettles s l = (s2, evs, []) ∧
        s2.pollPending = 0 ∧ s2.pollTransfersPresent = false ∧
        s2.pollActive = false ∧ evs = pre ++ [Ev.endEv] ∧ Ev.endEv ∉ pre := by
  induction l with
  | nil => intro s _ _ _ hne; exact absurd rfl hne
  | cons st rest ih =>
    intro s hA hP hpd _
    obtain ⟨evs1, hnotin, hstep⟩ :=
      transferDone_drain_step s st.errno st.buf st.actual st.cancelFails st.submitOk hA hP
    by_cases hrest : rest = []
    · subst hrest
      have hpd1 : s.pollPending - 1 = 0 := by rw [hpd]; simp
      rw [if_pos hpd1] at hstep
      refine ⟨{ s with
          inFlight := s.inFlight - 1
          pollPending := s.pollPending - 1
          pollTransfersPresent := false },
        evs1 ++ [Ev.endEv], evs1, ?_, ?_, rfl, ?_, rfl, hnotin⟩
      · show runSettles s [st] = _
        simp only [runSettles, hstep]
        simp
      · show s.pollPending - 1 = 0
        exact hpd1
      · show s.pollActive = false
        exact hA
    · have hpdne : ¬ s.pollPending - 1 = 0 := by
        rw [hpd]
        cases rest with
        | nil => exact absurd rfl hrest
        | cons a b => simp only [List.length_cons]; push_cast; omega
      rw [if_neg hpdne] at hstep
      obtain ⟨s2, evs2, pre2, heq2, h0, hp2, ha2, hevs2, hnotin2⟩ :=
        ih { s with inFlight := s.inFlight - 1, pollPending := s.pollPending - 1 }
          hA hP
          (by show s.pollPending - 1 = _
              rw [hpd]
              simp only [List.length_cons]
              push_cast
              ring) hrest
      refine ⟨s2, evs1 ++ evs2, evs1 ++ pre2, ?_, h0, hp2, ha2, ?_, ?_⟩
      · show runSettles s (st :: rest) = _
        simp only [runSettles, hstep, heq2]
        simp
      · rw [hevs2, List.append_assoc]
      · simp only [List.mem_append]
        rintro (h | h)
        · exact hnotin h
        · exact hnotin2 h

/-- C3: after `stopPoll` on a polling endpoint whose pending count matches
the number of in-flight settlements still to come, every settled transfer
decrements the pending counter instead of resubmitting; when the counter
reaches zero the pool is discarded and exactly one `end` event fires, the
pending count being 0 at that moment; `end` is the last event of the whole
drain, regardless of how many transfers were in flight at `stopPoll` time. -/
theorem stopPoll_drain_end (s : EpState) (cf : List Bool) (l : List Settle)
    (hA : s.pollActive = true) (hP : s.pollTransfersPresent = true)
    (hpd : s.pollPending = (l.length : Int)) (hne : l ≠ []) :
    ∃ s1 evs1 s2 evs2 pre,
      stopPollRun s cf = .ok (s1, evs1) ∧
      runSettles s1 l = (s2, evs2, []) ∧
      s2.pollPending = 0 ∧ s2.pollTransfersPresent = false ∧
      evs1 ++ evs2 = pre ++ [Ev.endEv] ∧ Ev.endEv ∉ pre := by
  have hnp : ¬ (s.pollTransfersPresent = false) := by rw [hP]; simp
  have hs1 : stopPollRun s cf = .ok ({ s with pollActive := false },
      ((List.range s.numSlots).filter fun i => cf.getD i false).map fun _ => Ev.err) := by
    rw [stopPollRun, if_neg hnp]
  obtain ⟨s2, evs2, pre2, heq, h0, hp2, _, hevs, hnotin⟩ :=
    runSettles_drain l { s with pollActive := false } rfl hP hpd hne
  refine ⟨_, _, s2, evs2,
    (((List.range s.numSlots).filter fun i => cf.getD i false).map fun _ => Ev.err)
      ++ pre2, hs1, heq, h0, hp2, ?_, ?_⟩
  · rw [hevs, List.append_assoc]
  · simp only [List.mem_append]
    rintro (h | h)
    · simp at h
    · exact hnotin h

/-- Witness for `stopPoll_drain_end`: a pool with one transfer in flight is
stopped and its single cancelled completion drains it. -/
theorem stopPoll_drain_end_witness :
    ∃ s1 evs1 s2 evs2 pre,
      stopPollRun ⟨true, 1, 64, true, 1, 1⟩ [] = .ok (s1, evs1) ∧
      runSettles s1 [⟨some 3, [], 0, [], true⟩] = (s2, evs2, []) ∧
      s2.pollPending = 0 ∧ s2.pollTransfersPresent = false ∧
      evs1 ++ evs2 = pre ++ [Ev.endEv] ∧ Ev.endEv ∉ pre :=
  stopPoll_drain_end ⟨true, 1, 64, true, 1, 1⟩ [] [⟨some 3, [], 0, [], true⟩]
    rfl rfl (by decide) (List.cons_ne_nil _ _)

/-- C4 counterexample: in the Draining state the pool still exists
(`pollTransfers` is only deleted when the drain finishes) although it is no
longer Active, and `stopPoll` does **not** raise a usage error there — it
succeeds, re-issuing cancels — contradicting the claim that a usage error is
raised whenever the pool is not Active. -/
theorem stopPoll_draining_no_usage_error :
    stopPollRun ⟨true, 2, 64, false, 2, 2⟩ [] =
      .ok (⟨true, 2, 64, false, 2, 2⟩, []) := rfl

/-- C4 (amended): `stopPoll` raises a usage error synchronously if and only
if the endpoint has no transfer pool at all (`pollTransfers` unset) — in
particular not in the Draining state, where the pool still exists; when the
pool exists, it issues a cancel request against every outstanding transfer,
reports each synchronously failing cancel as one `error` event without
aborting the drain (slot count, pending count and in-flight count are
untouched), and marks the pool as no longer active. -/
theorem stopPoll_spec (s : EpState) (cf : List Bool) :
    ((∃ e, stopPollRun s cf = .error e) ↔ s.pollTransfersPresent = false) ∧
    (s.pollTransfersPresent = true →
      ∃ s1 evs, stopPollRun s cf = .ok (s1, evs) ∧
        s1.pollActive = false ∧
        s1.pollTransfersPresent = true ∧
        s1.numSlots = s.numSlots ∧ s1.pollPending = s.pollPending ∧
        s1.inFlight = s.inFlight ∧
        (∀ ev ∈ evs, ev = Ev.err) ∧
        evs.length = (List.range s.numSlots).countP fun i => cf.getD i false) := by
  constructor
  · cases hb : s.pollTransfersPresent with
    | false =>
      constructor
      · intro _; rfl
      · intro _
        refine ⟨"Polling is not active.", ?_⟩
        rw [stopPollRun, if_pos hb]
    | true =>
      constructor
      · rintro ⟨e, he⟩
        rw [stopPollRun, if_neg (by rw [hb]; simp)] at he
        exact absurd he (by simp)
      · intro h; exact absurd h (by simp)
  · intro hp
    refine ⟨{ s with pollActive := false },
      ((List.range s.numSlots).filter fun i => cf.getD i false).map fun _ => Ev.err,
      ?_, rfl, ?_, rfl, rfl, rfl, ?_, ?_⟩
    · rw [stopPollRun, if_neg (by rw [hp]; simp)]
    · show s.pollTransfersPresent = true
      exact hp
    · intro ev hev
      simp only [List.mem_map] at hev
      obtain ⟨_, _, h⟩ := hev
      exact h.symm
    · rw [List.length_map, List.countP_eq_length_filter]

/-- Witness for `stopPoll_spec`: stopping an Active pool of 3 slots where
the cancels on slots 0 and 2 throw yields two `error` events and a
no-longer-active pool. -/
theorem stopPoll_spec_witness :
    ∃ s1 evs, stopPollRun ⟨true, 3, 8, true, 3, 3⟩ [true, false, true] = .ok (s1, evs) ∧
      s1.pollActive = false ∧ s1.pollTransfersPresent = true ∧
      s1.numSlots = 3 ∧ s1.pollPending = 3 ∧ s1.inFlight = 3 ∧
      (∀ ev ∈ evs, ev = Ev.err) ∧
      evs.length = (List.range 3).countP fun i => [true, false, true].getD i false :=
  (stopPoll_spec ⟨true, 3, 8, true, 3, 3⟩ [true, false, true]).2 rfl

/-! ### OutEndpoint.transferWithZLP (src/index.ts lines 590-597) -/

/-- `OutEndpoint.transferWithZLP`: the list of `transfer` submissions it
performs, each paired with whether the completion callback is attached to
that submission.  The source guard is
`buf.length % this.descriptor.wMaxPacketSize == 0`; in JavaScript `x % 0`
is `NaN` and `NaN == 0` is false, so the guard additionally requires a
nonzero `wMaxPacketSize`. -/
def transferWithZLP (wMaxPacketSize : Nat) (buf : Buffer) : List (Buffer × Bool) :=
  if wMaxPacketSize ≠ 0 ∧ buf.length % wMaxPacketSize = 0 then
    [(buf, false), (([] : Buffer), true)]
  else
    [(buf, true)]

/-- C9 counterexample: the claim requires the zero-length follow-up
submission exactly when the buffer's length is an integer multiple of the
endpoint's `wMaxPacketSize`.  With `wMaxPacketSize = 0` and an empty buffer
the length 0 is an integer multiple of 0 (`0 = 0 * 0`), yet the code
performs a single submission, because in JavaScript `0 % 0` is `NaN` and the
`== 0` comparison is false. -/
theorem transferWithZLP_zero_mps :
    (∃ k, List.length ([] : Buffer) = k * 0) ∧
    transferWithZLP 0 [] = [(([] : Buffer), true)] :=
  ⟨⟨0, rfl⟩, rfl⟩

/-- C9 (amended): `transferWithZLP` submits the caller's buffer and, exactly
when `wMaxPacketSize` is nonzero and the buffer's length is an integer
multiple of it, follows it with a second submission of an explicit
zero-length buffer carrying the completion callback; otherwise (including
the degenerate `wMaxPacketSize = 0` case) it performs a single submission of
the data buffer with the callback. -/
theorem transferWithZLP_spec (mps : Nat) (buf : Buffer) :
    (transferWithZLP mps buf = [(buf, false), (([] : Buffer), true)] ↔
      mps ≠ 0 ∧ ∃ k, buf.length = k * mps) ∧
    (¬ (mps ≠ 0 ∧ ∃ k, buf.length = k * mps) →
      transferWithZLP mps buf = [(buf, true)]) := by
  have hdvd : (mps ≠ 0 ∧ buf.length % mps = 0) ↔ (mps ≠ 0 ∧ ∃ k, buf.length = k * mps) := by
    constructor
    · rintro ⟨h0, hm⟩
      exact ⟨h0, buf.length / mps,
        (Nat.div_mul_cancel (Nat.dvd_of_mod_eq_zero hm)).symm⟩
    · rintro ⟨h0, k, hk⟩
      refine ⟨h0, ?_⟩
      rw [hk, Nat.mul_mod_left]
  constructor
  · constructor
    · intro h
      rw [← hdvd]
      by_contra hc
      rw [transferWithZLP, if_neg hc] at h
      simp at h
    · intro h
      rw [transferWithZLP, if_pos (hdvd.mpr h)]
  · intro h
    rw [transferWithZLP, if_neg (fun hc => h (hdvd.mp hc))]

/-- Witness for `transferWithZLP_spec`: a 2-byte buffer on an endpoint with
`wMaxPacketSize = 2` is followed by an explicit zero-length submission. -/
theorem transferWithZLP_spec_witness :
    transferWithZLP 2 [4, 5] = [([4, 5], false), (([] : Buffer), true)] :=
  (transferWithZLP_spec 2 [4, 5]).1.mpr ⟨by decide, 1, rfl⟩

/-! ### Timeout defaults (src/index.ts lines 266, 300, 439, 463) -/

/-- The prototype fields `usb.Device.prototype.timeout = 1000`. -/
structure DeviceProto where
  timeout : Nat := 1000
deriving Repr, DecidableEq

/-- The endpoint descriptor fields read by the `Endpoint` constructor. -/
structure EndpointDescriptorRec where
  bEndpointAddress : Nat
  bmAttributes : Nat
  wMaxPacketSize : Nat
deriving Repr, DecidableEq

/-- Fields of an `Endpoint` object: class initialiser `timeout = 0`. -/
structure EndpointObj where
  address : Nat
  transferType : Nat
  timeout : Nat := 0
deriving Repr, DecidableEq

/-- The `Endpoint` constructor: `address = descriptor.bEndpointAddress`,
`transferType = descriptor.bmAttributes & 0x03`, timeout left at its
class-initialiser default of 0. -/
def mkEndpoint (desc : EndpointDescriptorRec) : EndpointObj :=
  { address := desc.bEndpointAddress, transferType := desc.bmAttributes &&& 3 }

/-- Parameters handed to `new usb.Transfer(...)`. -/
structure TransferParams where
  endpointAddr : Nat
  transferType : Nat
  timeout : Nat
deriving Repr, DecidableEq

/-- The transfer constructed by `controlTransfer`:
`new usb.Transfer(this, 0, usb.LIBUSB_TRANSFER_TYPE_CONTROL, this.timeout,
callback)`. -/
def controlTransferParams (dev : DeviceProto) : TransferParams :=
  { endpointAddr := 0, transferType := LIBUSB_TRANSFER_TYPE_CONTROL,
    timeout := dev.timeout }

/-- `Endpoint.makeTransfer(timeout, callback)`:
`new usb.Transfer(this.device, this.address, this.transferType, timeout,
callback)`; the single-shot endpoint transfers pass `this.timeout`. -/
def makeTransfer (ep : EndpointObj) (timeout : Nat) : TransferParams :=
  { endpointAddr := ep.address, transferType := ep.transferType,
    timeout := timeout }

/-- C10: every `Device` carries a `timeout` field defaulting to 1000
milliseconds and `controlTransfer` constructs its control transfer with the
device's current timeout (so a default-configured control transfer times out
after 1000 ms), whereas the per-endpoint timeout used by single-shot
endpoint transfers defaults to 0, i.e. unbounded. -/
theorem timeout_defaults (dev : DeviceProto) (desc : EndpointDescriptorRec) :
    ({} : DeviceProto).timeout = 1000 ∧
    (controlTransferParams {}).timeout = 1000 ∧
    (controlTransferParams dev).timeout = dev.timeout ∧
    (mkEndpoint desc).timeout = 0 ∧
    (makeTransfer (mkEndpoint desc) (mkEndpoint desc).timeout).timeout = 0 :=
  ⟨rfl, rfl, rfl, rfl, rfl⟩

end NodeUsb
